import Mathlib

/-!
Verification of the planning orchestrator of the motherload-agent repository,
a shallow embedding of src/services/agent-planner/run-agent-planner.ts.

Modelling conventions:
* JavaScript numbers are `Int` where the program uses them as integers
  (coordinates, turn counters, plan lengths) and `ℚ` where fractional values
  occur (fuel quantities: the air-move cost is the literal 0.5).  All the
  arithmetic the program performs on these values is exact in IEEE doubles
  for the magnitudes involved, so exact rationals are a faithful model.
* JavaScript strings are Lean `String`s; `toUpperCase` / `toLowerCase` /
  `trim` are modelled on ASCII characters, which covers the whole action
  token vocabulary.
* Optional boolean fields of `State` (`atSurface`, `atFuelStation`,
  `atUpgradeShop`) are `Bool` with default `false`: the source only ever
  reads them in boolean position, where `undefined` behaves as `false`.
* File logging (`appendSessionLog`, `logLine`, session directories) and
  wall-clock timestamps are not modelled: the spec excludes the logging
  layer and no value the program returns depends on them.
-/

set_option maxHeartbeats 1000000

namespace MLA

/-- Tagged action union.  The direction and upgrade-kind payloads are kept as
raw strings because the source casts the substring after the colon with
`as Direction` / `as UpgradeKind` without checking it, so at runtime
arbitrary strings can occupy these fields. -/
inductive Action where
  | move (dir : String) (reason : String)
  | upgrade (kind : String) (reason : String)
  | surfaceOps (reason : String)
deriving DecidableEq, Repr

/-- Player position `pos` of the game state. -/
structure Pos where
  x : Int
  y : Int
  depth : Int
deriving DecidableEq, Repr

/-- A `{cur, max}` pair (fuel and hull). -/
structure FuelRange where
  cur : ℚ
  max : ℚ
deriving DecidableEq, Repr

/-- A `{cur, cap}` pair (cargo). -/
structure CargoRange where
  cur : ℚ
  cap : ℚ
deriving DecidableEq, Repr

/-- Optional goal marker of the game state. -/
structure Goal where
  x : Int
  y : Int
  mined : Bool
deriving DecidableEq, Repr

/-- A station position. -/
structure StationPos where
  x : Int
  y : Int
deriving DecidableEq, Repr

/-- Optional station positions of the game state. -/
structure Stations where
  fuel : Option StationPos
  shop : Option StationPos
deriving DecidableEq, Repr

/-- The untyped `rules.digFuelBase` object read defensively by the hint
builders (`typeof (state.rules as any)?.digFuelBase?.dirt === "number"`). -/
structure DigFuelBase where
  dirt : Option ℚ
  lava : Option ℚ
deriving DecidableEq, Repr

/-- Optional rule constants of the game state. -/
structure Rules where
  noDigUp : Option Bool
  upRequiresAir : Option Bool
  lavaDamage : Option ℚ
  baseTurnFuel : Option ℚ
  digFuelBase : Option DigFuelBase
deriving DecidableEq, Repr

/-- The `State` interface of data-flow-models.ts.  The required fields are
exactly those `validateState` checks; the optional ones default to the
values the source substitutes for `undefined`. -/
structure State where
  turn : Int
  pos : Pos
  fuel : FuelRange
  hull : FuelRange
  cargo : CargoRange
  money : ℚ
  localScan : List String
  atSurface : Bool := false
  atFuelStation : Bool := false
  atUpgradeShop : Bool := false
  drill : Option ℚ := none
  goal : Option Goal := none
  stations : Option Stations := none
  rules : Option Rules := none
deriving DecidableEq, Repr

/-- The plan-length clamp `Math.max(1, Math.min(10, planLength || 1))` used by
`planActions` and `sanitizeActions`; `planLength || 1` replaces the falsy
value 0 by 1. -/
def clampLen (planLength : Int) : Nat :=
  (max 1 (min 10 (if planLength = 0 then 1 else planLength))).toNat

/-- The deterministic fallback planner `planActions`: `n` slots are filled one
by one; each slot applies the same rule chain to the (unchanging) state. -/
def planActions (state : State) (planLength : Int) : List Action :=
  (List.range (clampLen planLength)).map (fun _ =>
    if state.atFuelStation = true ∧ (0 < state.cargo.cur ∨ state.fuel.cur < state.fuel.max) then
      .surfaceOps "Refuel and cash in at station."
    else if state.atUpgradeShop = true ∧ 150 ≤ state.money then
      .upgrade "FUEL" "Buying fuel upgrade."
    else
      .move "D" "Server plan: move down.")

/-- A minimal well-formed state shared by the example instantiations below. -/
def exampleState : State :=
  { turn := 0, pos := ⟨0, 0, 0⟩, fuel := ⟨1, 1⟩, hull := ⟨1, 1⟩,
    cargo := ⟨0, 0⟩, money := 0, localScan := [] }

/-! ### Tokenization, grammar validation and parsing

`validateExecution` and `parseActionTokens` both start from
`executionText.trim().split(/\s+/).filter(Boolean)`.  That pipeline equals
splitting on every whitespace character and dropping the empty pieces, which
`tokenizeChars` computes directly. -/

/-- Scanner behind `tokenizeChars`: collects the current run of
non-whitespace characters in `acc` (reversed) and emits maximal runs. -/
def tokenizeAux (acc : List Char) : List Char → List (List Char)
  | [] => if acc = [] then [] else [acc.reverse]
  | c :: cs =>
    if c.isWhitespace then
      if acc = [] then tokenizeAux [] cs
      else acc.reverse :: tokenizeAux [] cs
    else tokenizeAux (c :: acc) cs

/-- Whitespace tokenizer: the model of
`text.trim().split(/\s+/).filter(Boolean)` on the character list — the
maximal whitespace-separated runs of non-whitespace characters, in order. -/
def tokenizeChars (cs : List Char) : List (List Char) := tokenizeAux [] cs

/-- Model of `String.prototype.trim`: whitespace stripped from both ends. -/
def trimChars (cs : List Char) : List Char :=
  ((cs.dropWhile Char.isWhitespace).reverse.dropWhile Char.isWhitespace).reverse

/-- Model of `String.prototype.toUpperCase` (ASCII). -/
def upperStr (cs : List Char) : String := String.mk (cs.map Char.toUpper)

/-- The four `MOVE` tokens matched by the zod regex `^MOVE:(U|D|L|R)$`. -/
def moveTokens : List String := ["MOVE:U", "MOVE:D", "MOVE:L", "MOVE:R"]

/-- The four `UPGRADE` tokens matched by `^UPGRADE:(FUEL|CARGO|HULL|DRILL)$`. -/
def upgradeTokens : List String :=
  ["UPGRADE:FUEL", "UPGRADE:CARGO", "UPGRADE:HULL", "UPGRADE:DRILL"]

/-- One token alternative of the zod union: the anchored regexes amount to
exact membership in the nine-string vocabulary. -/
def validTokenB (t : String) : Bool :=
  decide (t = "SURFACE_OPS" ∨ t ∈ moveTokens ∨ t ∈ upgradeTokens)

/-- `validateExecution`: tokenize, uppercase each token, check the zod schema
`z.array(tokenSchema).min(1).max(planLength)`.  Only the boolean success of
`safeParse` is consumed by the callers. -/
def validateExecution (executionText : String) (planLength : Int) : Bool :=
  let tokens := tokenizeChars executionText.data
  decide (1 ≤ tokens.length) && decide ((tokens.length : Int) ≤ planLength) &&
    tokens.all (fun t => validTokenB (upperStr t))

/-- Model of `String.prototype.startsWith` on the character lists. -/
def strStartsWith (t pre : String) : Bool := pre.data.isPrefixOf t.data

/-- `t.split(":", 2)[1]`: the text between the first and second colon (or to
the end of the string); the callers only reach it when `t` contains a colon. -/
def colonField1 (t : String) : String :=
  String.mk (((t.data.dropWhile (fun c => c != ':')).drop 1).takeWhile (fun c => c != ':'))

/-- The per-token branch chain of `parseActionTokens`, applied to the
trimmed, uppercased token. -/
def parseTokenCore (t : String) : Option Action :=
  if t = "SURFACE_OPS" then some (.surfaceOps "Planned action.")
  else if strStartsWith t "UPGRADE:" then some (.upgrade (colonField1 t) "Planned action.")
  else if strStartsWith t "MOVE:" then some (.move (colonField1 t) "Planned action.")
  else none

/-- One iteration of the `parseActionTokens` loop (`raw.trim().toUpperCase()`
then the branch chain); tokens matching no branch produce nothing. -/
def parseToken (raw : List Char) : Option Action :=
  parseTokenCore (upperStr (trimChars raw))

/-- `parseActionTokens`. -/
def parseActionTokens (executionText : String) : List Action :=
  (tokenizeChars executionText.data).filterMap parseToken

/-- Direction payloads of the vocabulary. -/
def dirStrings : List String := ["U", "D", "L", "R"]

/-- Upgrade-kind payloads of the vocabulary. -/
def kindStrings : List String := ["FUEL", "CARGO", "HULL", "DRILL"]

/-- Claim-side relation: the type, direction and kind of the action match
the token (case-insensitively). -/
def tokenMatches (tok : List Char) (a : Action) : Prop :=
  match a with
  | .move d _ => d ∈ dirStrings ∧ upperStr tok = "MOVE:" ++ d
  | .upgrade k _ => k ∈ kindStrings ∧ upperStr tok = "UPGRADE:" ++ k
  | .surfaceOps _ => upperStr tok = "SURFACE_OPS"

/-! ### Heuristic advisors: fuel-return and shop-return hints -/

/-- `state.rules?.baseTurnFuel ?? 1`. -/
def ruleBaseTurnFuel (state : State) : ℚ :=
  (state.rules.bind Rules.baseTurnFuel).getD 1

/-- `typeof (state.rules as any)?.digFuelBase?.dirt === "number" ? ... : 2`. -/
def ruleDigFuelDirt (state : State) : ℚ :=
  (state.rules.bind (fun r => r.digFuelBase.bind DigFuelBase.dirt)).getD 2

/-- `typeof (state.rules as any)?.digFuelBase?.lava === "number" ? ... : 3`. -/
def ruleDigFuelLava (state : State) : ℚ :=
  (state.rules.bind (fun r => r.digFuelBase.bind DigFuelBase.lava)).getD 3

/-- `state.stations?.fuel?.x ?? 6`. -/
def fuelStationX (state : State) : Int :=
  ((state.stations.bind Stations.fuel).map StationPos.x).getD 6

/-- `state.stations?.shop?.x ?? 27`. -/
def upgradeShopX (state : State) : Int :=
  ((state.stations.bind Stations.shop).map StationPos.x).getD 27

/-- The record produced by `buildFuelHint`. -/
structure FuelHint where
  stationX : Int
  returnDx : Int
  returnDy : Int
  estReturnFuel : ℚ
  buffer : ℚ
  fuelCur : ℚ
  fuelMax : ℚ
  shouldReturn : Bool
  turnsLeftMax : Int
  turnsLeftAir : Int
  turnsLeftDig : Int
  turnsLeftProbable : Int
  turnsLeftUp : Int
  turnsLeftWorst : Int
deriving DecidableEq, Repr

/-- `buildFuelHint`.  The defensive `if (!state.pos || !state.fuel) return
null` guard cannot fire on a typed `State` (both fields are required), so
the model returns the record directly. -/
def buildFuelHint (state : State) : FuelHint :=
  let stationX := fuelStationX state
  let returnDy := max 0 (state.pos.y - 1)
  let returnDx := |state.pos.x - stationX|
  let baseTurnFuel := ruleBaseTurnFuel state
  let upThrustFuel : ℚ := 2
  let airMoveFuel : ℚ := 1/2
  let digFuel := ruleDigFuelDirt state
  let lavaDigFuel := ruleDigFuelLava state
  let verticalCost := baseTurnFuel + upThrustFuel
  let horizontalCost := baseTurnFuel + (if 1 < state.pos.y then digFuel + 1 else airMoveFuel)
  let estReturnFuel := (returnDy : ℚ) * verticalCost + (returnDx : ℚ) * horizontalCost
  let buffer : ℚ := 8
  let safeBase := max 1 baseTurnFuel
  let safeAir := max 1 (baseTurnFuel + airMoveFuel)
  let safeDig := max 1 (baseTurnFuel + digFuel + 1)
  let safeUpThrust := max 1 (baseTurnFuel + upThrustFuel)
  let safeWorst := max 1 (baseTurnFuel + lavaDigFuel + 1)
  { stationX := stationX
    returnDx := returnDx
    returnDy := returnDy
    estReturnFuel := estReturnFuel
    buffer := buffer
    fuelCur := state.fuel.cur
    fuelMax := state.fuel.max
    shouldReturn := decide (state.fuel.cur ≤ estReturnFuel + buffer)
    turnsLeftMax := Rat.floor (state.fuel.cur / safeBase)
    turnsLeftAir := Rat.floor (state.fuel.cur / safeAir)
    turnsLeftDig := Rat.floor (state.fuel.cur / safeDig)
    turnsLeftProbable := Rat.floor (state.fuel.cur / safeDig)
    turnsLeftUp := Rat.floor (state.fuel.cur / safeUpThrust)
    turnsLeftWorst := Rat.floor (state.fuel.cur / safeWorst) }

/-- The record produced by `buildShopHint`. -/
structure ShopHint where
  shopX : Int
  returnDx : Int
  returnDy : Int
  estReturnFuel : ℚ
deriving DecidableEq, Repr

/-- `buildShopHint`: the fuel-return cost model aimed at the shop
x-coordinate; the `!state.pos` guard cannot fire on a typed `State`. -/
def buildShopHint (state : State) : ShopHint :=
  let shopX := upgradeShopX state
  let returnDy := max 0 (state.pos.y - 1)
  let returnDx := |state.pos.x - shopX|
  let baseTurnFuel := ruleBaseTurnFuel state
  let upThrustFuel : ℚ := 2
  let airMoveFuel : ℚ := 1/2
  let digFuel := ruleDigFuelDirt state
  let verticalCost := baseTurnFuel + upThrustFuel
  let horizontalCost := baseTurnFuel + (if 1 < state.pos.y then digFuel + 1 else airMoveFuel)
  { shopX := shopX
    returnDx := returnDx
    returnDy := returnDy
    estReturnFuel := (returnDy : ℚ) * verticalCost + (returnDx : ℚ) * horizontalCost }

/-- Estimated return fuel exactly as claim C4 words it: below the surface the
horizontal per-column cost is `baseTurnFuel + digCost`, where `digCost` is
the dig-fuel constant of the state (`digFuelBase.dirt`, default 2).  The source
instead charges `baseTurnFuel + digCost + 1` per column. -/
def claimEstReturnFuel (state : State) : ℚ :=
  let returnDy := max 0 (state.pos.y - 1)
  let returnDx := |state.pos.x - fuelStationX state|
  let b := ruleBaseTurnFuel state
  if 1 < state.pos.y then
    (returnDy : ℚ) * (b + 2) + (returnDx : ℚ) * (b + ruleDigFuelDirt state)
  else
    (returnDx : ℚ) * (b + 1/2)

/-- A state below the surface one column away from the default fuel station:
the code estimates 7 fuel to return, the formula of the claim estimates 6,
and with `fuel.cur = 15` the code reports `shouldReturn = true` while the
inequality `fuel.cur ≤ est + 8` of the claim is false for its own
estimate. -/
def fuelHintCounterState : State :=
  { turn := 0, pos := ⟨7, 2, 2⟩, fuel := ⟨15, 30⟩, hull := ⟨1, 1⟩,
    cargo := ⟨0, 0⟩, money := 0, localScan := [] }

/-! ### Session memory: sparse tile map, visited trail, bounding box -/

/-- The running bounding box of all known coordinates. -/
structure Bounds where
  minX : Int
  maxX : Int
  minY : Int
  maxY : Int
deriving DecidableEq, Repr

/-- A visited-trail entry `{x, y, turn}`. -/
structure Visit where
  x : Int
  y : Int
  turn : Int
deriving DecidableEq, Repr

/-- The sparse tile map `session.known`: a JavaScript `Map` keyed by the
composite string key `"x,y"`, modelled as an association list keyed by the
coordinate pair (the string key encodes exactly the pair). -/
abbrev KnownMap := List ((Int × Int) × Char)

/-- `Map.prototype.has`-style key test. -/
def mapHasKey (m : KnownMap) (k : Int × Int) : Bool :=
  m.any (fun p => decide (p.1 = k))

/-- `Map.prototype.set`: overwrite the binding in place if the key is
present (JavaScript maps hold each key at most once), append otherwise. -/
def mapSet : KnownMap → (Int × Int) → Char → KnownMap
  | [], k, v => [(k, v)]
  | p :: rest, k, v => if p.1 = k then (k, v) :: rest else p :: mapSet rest k v

/-- `Map.prototype.get` (`none` for a missing key). -/
def mapGet (m : KnownMap) (k : Int × Int) : Option Char :=
  (m.find? (fun p => decide (p.1 = k))).map Prod.snd

/-- Widening the bounding box around one coordinate (the four
`Math.min`/`Math.max` updates of `updateMemory`). -/
def widenBounds (b : Bounds) (k : Int × Int) : Bounds :=
  ⟨min b.minX k.1, max b.maxX k.1, min b.minY k.2, max b.maxY k.2⟩

/-- The degenerate box around one coordinate (the very-first-insert case). -/
def pointBounds (k : Int × Int) : Bounds := ⟨k.1, k.1, k.2, k.2⟩

/-- A coordinate lies inside a bounding box. -/
def inBounds (k : Int × Int) (b : Bounds) : Prop :=
  b.minX ≤ k.1 ∧ k.1 ≤ b.maxX ∧ b.minY ≤ k.2 ∧ k.2 ≤ b.maxY

instance (k : Int × Int) (b : Bounds) : Decidable (inBounds k b) := by
  unfold inBounds; infer_instance

/-- The optional client-provided fuel-navigator hint, passed through to the
model payload unchanged. -/
structure FuelNavigatorPayload where
  active : Bool
  fuelPct : ℚ
  estReturnFuel : ℚ
  errorRate : ℚ
  risk : ℚ
  pathDirs : List String
  nextActions : Option (List String) := none
  message : Option String := none
deriving DecidableEq, Repr

/-- A `{x, y, t}` tile record (`scanTiles` / `knownTiles` entries). -/
structure Tile where
  x : Int
  y : Int
  t : Char
deriving DecidableEq, Repr

/-- The `memory` sub-object of the model payload. -/
structure MemoryView where
  knownWindow : List String
  visitedTail : List Visit
  bounds : Bounds
deriving DecidableEq, Repr

/-- The `analyzeBehavior` result (three independent nullable notes). -/
structure BehaviorNote where
  stuck : Option String
  oscillating : Option String
  depthNote : Option String
deriving DecidableEq, Repr

/-- The structured user payload (`userPayload`) sent to the model. -/
structure UserPayload where
  planLength : Int
  turnsElapsed : Int
  state : State
  fuelNavigator : Option FuelNavigatorPayload
  memory : MemoryView
  scanTiles : List Tile
  knownTiles : List Tile
  fuelHint : FuelHint
  shopHint : ShopHint
  behaviorNote : Option BehaviorNote
  blockedDirs : Option (List String)
  fuelRuns : Nat
  upgradeReminder : Option String
deriving DecidableEq, Repr

/-- The `state` sub-object kept by `summarizeUserPayloadForHistory`. -/
structure StateSummary where
  turn : Int
  pos : Pos
  fuel : FuelRange
  hull : FuelRange
  cargo : CargoRange
  money : ℚ
  atSurface : Bool
  atFuelStation : Bool
  atUpgradeShop : Bool
  drill : Option ℚ
  goal : Option Goal
deriving DecidableEq, Repr

/-- The size-bounded summary stored in the conversation history in place of
the raw payload: `summarizeUserPayloadForHistory` parses the payload JSON
and keeps exactly these fields, dropping `memory`, `scanTiles`,
`knownTiles` and the bulky parts of `state`. -/
structure PayloadSummary where
  planLength : Int
  turnsElapsed : Int
  state : StateSummary
  fuelNavigator : Option FuelNavigatorPayload
  fuelHint : FuelHint
  shopHint : ShopHint
  behaviorNote : Option BehaviorNote
  blockedDirs : Option (List String)
  fuelRuns : Nat
  upgradeReminder : Option String
deriving DecidableEq, Repr

/-- Conversation roles. -/
inductive Role where
  | user
  | assistant
deriving DecidableEq, Repr

/-- Content of a conversation-history entry.  The source stores strings
produced by JSON serialization; the model keeps the provenance of each
string instead of spelling out the serialization: the raw payload text
(`JSON.stringify(userPayload)`), the summary text
(`summarizeUserPayloadForHistory(payloadText)`), or literal text (assistant
output and error markers). -/
inductive HistContent where
  | rawPayload (p : UserPayload)
  | payloadSummary (s : PayloadSummary)
  | text (t : String)
deriving DecidableEq, Repr

/-- A history entry `{ts, role, content}` (the timestamp is unmodelled). -/
structure HistEntry where
  role : Role
  content : HistContent
deriving DecidableEq, Repr

/-- Per-session memory (the log directory `sessionDir` is not modelled). -/
structure SessionMemory where
  id : String
  known : KnownMap
  visited : List Visit
  bounds : Bounds
  history : List HistEntry
  fuelRuns : Nat
  lastAtStation : Bool
deriving DecidableEq, Repr

/-- One iteration of the scan loop in `updateMemory`: write the tile, then
recompute the box (`session.known.size === 1` is tested after the write). -/
def insertCell (s : SessionMemory) (cell : (Int × Int) × Char) : SessionMemory :=
  let known := mapSet s.known cell.1 cell.2
  { s with
    known := known
    bounds := if known.length = 1 then pointBounds cell.1 else widenBounds s.bounds cell.1 }

/-- The absolute-coordinate cells of the local scan: cell `(rx, ry)` maps to
`(pos.x - 2 + rx, pos.y - 2 + ry)`.  Non-string rows (skipped by the
source) cannot occur in the typed model. -/
def scanCells (state : State) : List ((Int × Int) × Char) :=
  let baseX := state.pos.x - 2
  let baseY := state.pos.y - 2
  state.localScan.enum.flatMap (fun row =>
    row.2.data.enum.map (fun q => ((baseX + (q.1 : Int), baseY + (row.1 : Int)), q.2)))

/-- `updateMemory`: fold the scan into the tile map and box, then append to
the visited trail, evicting from the front beyond 50 entries. -/
def updateMemory (session : SessionMemory) (state : State) : SessionMemory :=
  let s1 := (scanCells state).foldl insertCell session
  let visited := s1.visited ++ [⟨state.pos.x, state.pos.y, state.turn⟩]
  { s1 with visited := if 50 < visited.length then visited.tail else visited }

/-- `updateFuelRunCount`: debounced counting of arrivals at the fuel
station. -/
def updateFuelRunCount (session : SessionMemory) (state : State) : SessionMemory :=
  if state.atFuelStation = false then { session with lastAtStation := false }
  else if session.lastAtStation = false then
    { session with fuelRuns := session.fuelRuns + 1, lastAtStation := true }
  else session

/-- A session exactly as `getSession` creates it. -/
def freshSession (id : String) : SessionMemory :=
  { id := id, known := [], visited := [], bounds := ⟨0, 0, 0, 0⟩,
    history := [], fuelRuns := 0, lastAtStation := false }

/-- The invariant maintained by `updateMemory`: a well-ordered bounding box
that contains every key of the tile map. -/
def memInv (s : SessionMemory) : Prop :=
  (s.bounds.minX ≤ s.bounds.maxX ∧ s.bounds.minY ≤ s.bounds.maxY) ∧
  ∀ p, mapHasKey s.known p = true → inBounds p s.bounds

/-- A state whose local scan contains a single tile, used to instantiate the
bounding-box invariant at a concrete coordinate. -/
def scanExampleState : State :=
  { turn := 0, pos := ⟨0, 0, 0⟩, fuel := ⟨1, 1⟩, hull := ⟨1, 1⟩,
    cargo := ⟨0, 0⟩, money := 0, localScan := ["d"] }

/-- Number of `false → true` transitions in a flag sequence, starting from a
given previous flag: the claim-side count of fuel-station arrivals. -/
def stationTransitions : Bool → List Bool → Nat
  | _, [] => 0
  | last, b :: bs => (if b = true ∧ last = false then 1 else 0) + stationTransitions b bs

/-- A minimal state carrying only the fuel-station flag. -/
def flagState (b : Bool) : State :=
  { turn := 0, pos := ⟨0, 0, 0⟩, fuel := ⟨1, 1⟩, hull := ⟨1, 1⟩,
    cargo := ⟨0, 0⟩, money := 0, localScan := [], atFuelStation := b }


/-! ### Payload builders -/

/-- `buildMemoryWindow`: a `size × size` egocentric character window around
the player, `'?'` for unknown cells (stored tiles are single characters and
never falsy). -/
def buildMemoryWindow (session : SessionMemory) (state : State) (size : Nat := 12) :
    List String :=
  let half := size / 2
  let startX := state.pos.x - (half : Int)
  let startY := state.pos.y - (half : Int)
  (List.range size).map (fun y =>
    String.mk ((List.range size).map (fun x =>
      (mapGet session.known (startX + (x : Int), startY + (y : Int))).getD '?')))

/-- `buildScanTiles`: the scan cells whose tile is not `"."`, in scan
order. -/
def buildScanTiles (state : State) : List Tile :=
  (scanCells state).filterMap (fun c =>
    if c.2 = '.' then none else some ⟨c.1.1, c.1.2, c.2⟩)

/-- The comparator `(a, b) => a.y - b.y || a.x - b.x` of `buildKnownTiles`. -/
def tileLe (a b : Tile) : Bool :=
  decide (a.y < b.y ∨ (a.y = b.y ∧ a.x ≤ b.x))

/-- `buildKnownTiles`: tiles that are neither `"."` nor `"?"`; when over the
limit, sorted by `(y, x)` (stable sort) and truncated.  The numeric key
re-parse (`Number` + `isFinite`) always succeeds in the model, where keys
are integer pairs. -/
def buildKnownTiles (session : SessionMemory) (limit : Nat := 400) : List Tile :=
  let tiles := session.known.filterMap (fun p =>
    if p.2 = '.' ∨ p.2 = '?' then none else some ⟨p.1.1, p.1.2, p.2⟩)
  if limit < tiles.length then (tiles.mergeSort tileLe).take limit else tiles

/-- The composite position key `x + "," + y` used by `analyzeBehavior`. -/
def posKeyStr (x y : Int) : String := toString x ++ "," ++ toString y

/-- First-occurrence deduplication: the iteration order of a JavaScript
`Set` built by insertion (`Array.from(new Set(...))`). -/
def firstDedupAux (seen : List String) : List String → List String
  | [] => []
  | a :: rest =>
    if a ∈ seen then firstDedupAux seen rest
    else a :: firstDedupAux (a :: seen) rest

/-- `Array.from(new Set(l))`. -/
def firstDedup (l : List String) : List String := firstDedupAux [] l

/-- `analyzeBehavior` (the `!state.pos` guard cannot fire on a typed
state, so the state argument is otherwise unused). -/
def analyzeBehavior (session : SessionMemory) (_state : State) : Option BehaviorNote :=
  let tail := session.visited.drop (session.visited.length - 8)
  if tail.length < 3 then none
  else
    let unique := firstDedup (tail.map (fun v => posKeyStr v.x v.y))
    let stuck :=
      if unique.length = 1 then
        some ("Position unchanged for last " ++ toString tail.length ++
          " turns; likely blocked moves (rock/surface) or insufficient fuel for U thrust.")
      else none
    let oscillating :=
      if unique.length = 2 then
        some ("Oscillating between " ++ unique.headD "" ++ " and " ++
          (unique.getD 1 "") ++ " over last " ++ toString tail.length ++
          " turns; may be bouncing off obstacles.")
      else none
    let depthDelta := (tail.getLastD ⟨0, 0, 0⟩).y - (tail.headD ⟨0, 0, 0⟩).y
    let depthNote :=
      if depthDelta.natAbs ≤ 1 then
        some ("No depth progress over last " ++ toString tail.length ++
          " turns (Δy=" ++ toString depthDelta ++ ").")
      else none
    some ⟨stuck, oscillating, depthNote⟩

/-- `blockedDirsFromScan`: the four orthogonally adjacent scan cells around
the player anchor (2,2); `'r'` (rock) and `'S'` (surface) block; missing
rows/columns read as `undefined` and do not block. -/
def blockedDirsFromScan (state : State) : Option (List String) :=
  let scan := state.localScan
  if scan.length < 3 then none
  else
    let tileAt := fun (dx dy : Int) =>
      (scan[(2 + dy).toNat]?).bind (fun row => row.data[(2 + dx).toNat]?)
    let isBlocked := fun (t : Option Char) => t = some 'r' ∨ t = some 'S'
    let blocked :=
      (if isBlocked (tileAt 0 (-1)) then ["U"] else []) ++
      (if isBlocked (tileAt 0 1) then ["D"] else []) ++
      (if isBlocked (tileAt (-1) 0) then ["L"] else []) ++
      (if isBlocked (tileAt 1 0) then ["R"] else [])
    if blocked = [] then none else some blocked

/-- `appendHistory`: push an entry and trim to the last 200 entries (the
per-session `conversation.json` write is logging, unmodelled). -/
def appendHistory (session : SessionMemory) (role : Role) (content : HistContent) :
    SessionMemory :=
  let h := session.history ++ [⟨role, content⟩]
  { session with history := if 200 < h.length then h.tail else h }

/-- The `state` sub-object built by `summarizeUserPayloadForHistory`. -/
def summarizeState (state : State) : StateSummary :=
  { turn := state.turn, pos := state.pos, fuel := state.fuel, hull := state.hull,
    cargo := state.cargo, money := state.money, atSurface := state.atSurface,
    atFuelStation := state.atFuelStation, atUpgradeShop := state.atUpgradeShop,
    drill := state.drill, goal := state.goal }

/-- `summarizeUserPayloadForHistory` at the structure level: the payload
text is `JSON.stringify(userPayload)`, which always parses back to the
payload, so the summary keeps exactly the listed fields. -/
def summarizePayload (p : UserPayload) : PayloadSummary :=
  { planLength := p.planLength, turnsElapsed := p.turnsElapsed,
    state := summarizeState p.state, fuelNavigator := p.fuelNavigator,
    fuelHint := p.fuelHint, shopHint := p.shopHint,
    behaviorNote := p.behaviorNote, blockedDirs := p.blockedDirs,
    fuelRuns := p.fuelRuns, upgradeReminder := p.upgradeReminder }

/-- The `userPayload` object assembled by `callOpenRouterPlan` after the
memory updates. -/
def buildUserPayload (session : SessionMemory) (state : State) (planLength : Int)
    (fuelNavigator : Option FuelNavigatorPayload) : UserPayload :=
  { planLength := planLength
    turnsElapsed := state.turn
    state := state
    fuelNavigator := fuelNavigator
    memory := { knownWindow := buildMemoryWindow session state 12,
                visitedTail := session.visited.drop (session.visited.length - 8),
                bounds := session.bounds }
    scanTiles := buildScanTiles state
    knownTiles := buildKnownTiles session
    fuelHint := buildFuelHint state
    shopHint := buildShopHint state
    behaviorNote := analyzeBehavior session state
    blockedDirs := blockedDirsFromScan state
    fuelRuns := session.fuelRuns
    upgradeReminder :=
      if 2 ≤ session.fuelRuns ∧ state.fuel.max < 180 then
        some ("You have returned to the fuel station multiple times; prioritize buying a FUEL upgrade at the shop to reach deeper depths.")
      else none }

/-! ### Tagged-output extraction -/

/-- First index (in characters) at which `needle` occurs in `hay`. -/
def findSub (needle : List Char) : List Char → Option Nat
  | [] => if needle = [] then some 0 else none
  | c :: t =>
    if needle.isPrefixOf (c :: t) then some 0
    else (findSub needle t).map (fun i => i + 1)

/-- The regex `<tag>([\s\S]*?)</tag>` with the `i` flag: leftmost match,
lazy body — the first case-insensitive occurrence of the open tag, then the
first occurrence of the close tag after it.  (If the first open tag has no
close tag after it, no later open tag has one either, so the regex fails
too.)  The body keeps the original case and is trimmed. -/
def extractTaggedText (text : String) (tagName : String) : Option String :=
  let hay := text.data.map Char.toLower
  let openTag := ("<" ++ tagName ++ ">").data.map Char.toLower
  let closeTag := ("</" ++ tagName ++ ">").data.map Char.toLower
  match findSub openTag hay with
  | none => none
  | some i =>
    let rest := text.data.drop (i + openTag.length)
    match findSub closeTag (rest.map Char.toLower) with
    | none => none
    | some j => some (String.mk (trimChars (rest.take j)))

/-- The tolerant fallback `/<execution>([\s\S]*)$/i`: open tag to the end of
the text. -/
def openExecutionTail (text : String) : Option String :=
  let hay := text.data.map Char.toLower
  let openTag := ("<execution>").data
  match findSub openTag hay with
  | none => none
  | some i => some (String.mk (trimChars (text.data.drop (i + openTag.length))))

/-- `extractExecutionText`.  A full-tag body that trims to the empty string
is falsy in `if (full) return full`, so it falls through to the open-tag
pattern. -/
def extractExecutionText (text : String) : Option String :=
  match extractTaggedText text "execution" with
  | some s => if s = "" then openExecutionTail text else some s
  | none => openExecutionTail text

/-! ### Action sanitizer and protocol engine -/

/-- The loop of `sanitizeActions`: stop once `maxN` actions are kept; every
typed action is kept, with unknown directions coerced to `"D"`, unknown
kinds to `"FUEL"`, and falsy (empty) reasons replaced by defaults. -/
def sanitizeGo (maxN : Nat) : Nat → List Action → List Action
  | _, [] => []
  | len, a :: rest =>
    if maxN ≤ len then []
    else
      match a with
      | .move d r =>
        .move (if d ∈ dirStrings then d else "D")
          (if r = "" then "Fallback move." else r) :: sanitizeGo maxN (len + 1) rest
      | .upgrade k r =>
        .upgrade (if k ∈ kindStrings then k else "FUEL")
          (if r = "" then "Fallback upgrade." else r) :: sanitizeGo maxN (len + 1) rest
      | .surfaceOps r =>
        .surfaceOps (if r = "" then "Fallback surface ops." else r) ::
          sanitizeGo maxN (len + 1) rest

/-- The synthetic minimal state `sanitizeActions` hands to `planActions`
when it kept no action. -/
def synthFallbackState : State :=
  { turn := 0, pos := ⟨0, 0, 0⟩, fuel := ⟨1, 1⟩, hull := ⟨1, 1⟩,
    cargo := ⟨0, 0⟩, money := 0, localScan := [] }

/-- `sanitizeActions`. -/
def sanitizeActions (actions : Option (List Action)) (planLength : Int) : List Action :=
  let maxN := clampLen planLength
  let out := sanitizeGo maxN 0 (actions.getD [])
  if out = [] then planActions synthFallbackState (maxN : Int) else out

/-- Process configuration read from the environment once at startup. -/
structure PlannerEnv where
  apiKeyPresent : Bool
  maxPlansPerSession : Nat
  model : String
deriving DecidableEq, Repr

/-- Outcome of one chat-completion call: message content plus optional
reasoning text on success, or the message of the thrown error on failure.
Network errors, non-2xx responses, and both timeout-triggered and external
aborts all land in the single catch branch; the abort flags only select the
log message, which is unmodelled. -/
inductive CallOutcome where
  | ok (content : String) (reasoning : Option String)
  | failure (message : String)
deriving DecidableEq, Repr

/-- `PlanResponse` (fields a path does not set are `none`). -/
structure PlanResponse where
  actions : List Action
  note : String
  model : String
  reasoning : Option String
  progress : Option String
  status : Option String
deriving DecidableEq, Repr

/-- Result of one `callOpenRouterPlan` invocation: the response, the updated
session and the updated process-wide plan counter. -/
structure RunResult where
  resp : PlanResponse
  session : SessionMemory
  planCount : Nat
deriving DecidableEq, Repr

/-- `responseContent || reasoningText || ""` for a call outcome. -/
def combinedOf : CallOutcome → String
  | .ok content reasoning => if content = "" then reasoning.getD "" else content
  | .failure _ => ""

/-- `requestCorrection`: the single corrective round-trip.  It re-extracts
and re-validates the corrected output; it touches neither the session
history nor the plan counter, and returns `none` when the follow-up call
fails or the output is still missing or invalid. -/
def requestCorrection (model : String) (corr : CallOutcome) (planLength : Int) :
    Option PlanResponse :=
  match corr with
  | .failure _ => none
  | .ok content reasoning =>
    match extractExecutionText (if content = "" then reasoning.getD "" else content) with
    | none => none
    | some execText =>
      if execText = "" then none
      else if validateExecution execText planLength then
        if (parseActionTokens execText).length < 1 ∨
            planLength < ((parseActionTokens execText).length : Int) then none
        else some { actions := sanitizeActions (some (parseActionTokens execText)) planLength,
                    note := "openrouter-corrected", model := model,
                    reasoning := if content = "" then none else some content,
                    progress := none, status := none }
      else none

/-- `callOpenRouterPlan`.  The outcomes of the initial model call and of the
(at most one) correction call enter as oracle parameters.  The
inter-request throttle delay and all file logging are unmodelled: neither
affects any returned value or session field. -/
def callOpenRouterPlan (env : PlannerEnv) (planCount : Nat) (session : SessionMemory)
    (state : State) (planLength : Int) (fuelNavigator : Option FuelNavigatorPayload)
    (firstCall corrCall : CallOutcome) : RunResult :=
  if env.apiKeyPresent = false then
    { resp := { actions := planActions state planLength, note := "fallback-no-key",
                model := env.model, reasoning := none, progress := none, status := none },
      session := session, planCount := planCount }
  else if 0 < env.maxPlansPerSession ∧ env.maxPlansPerSession ≤ planCount then
    { resp := { actions := planActions state planLength, note := "fallback-max-plans",
                model := env.model, reasoning := none, progress := none, status := none },
      session := session, planCount := planCount }
  else
    let session2 := updateFuelRunCount (updateMemory session state) state
    let payload := buildUserPayload session2 state planLength fuelNavigator
    match firstCall with
    | .failure msg =>
      let session4 :=
        appendHistory (appendHistory session2 .user (.rawPayload payload))
          .assistant (.text ("<error:" ++ msg ++ ">"))
      { resp := { actions := [], note := "api-error", model := env.model,
                  reasoning := some msg, progress := none, status := some "api_error" },
        session := session4, planCount := planCount }
    | .ok content reasoning =>
      let combined := if content = "" then reasoning.getD "" else content
      let session4 :=
        appendHistory
          (appendHistory session2 .user (.payloadSummary (summarizePayload payload)))
          .assistant (.text (if combined = "" then "<empty>" else combined))
      let missing : RunResult :=
        match requestCorrection env.model corrCall planLength with
        | some r => { resp := r, session := session4, planCount := planCount }
        | none =>
          { resp := { actions := planActions state planLength,
                      note := "no-execution-tag", model := env.model,
                      reasoning := if combined = "" then none else some combined,
                      progress := none, status := some "bad_format" },
            session := session4, planCount := planCount }
      match extractExecutionText combined with
      | none => missing
      | some execText =>
        if execText = "" then missing
        else if validateExecution execText planLength then
          let actions := parseActionTokens execText
          if actions.length < 1 ∨ planLength < (actions.length : Int) then
            { resp := { actions := planActions state planLength,
                        note := "bad-execution-parse", model := env.model,
                        reasoning := if combined = "" then none else some combined,
                        progress := none, status := some "bad_format" },
              session := session4, planCount := planCount }
          else
            { resp := { actions := sanitizeActions (some actions) planLength,
                        note := "openrouter", model := env.model,
                        reasoning := if content = "" then none else some content,
                        progress := none, status := none },
              session := session4, planCount := planCount + 1 }
        else
          match requestCorrection env.model corrCall planLength with
          | some r => { resp := r, session := session4, planCount := planCount }
          | none =>
            { resp := { actions := planActions state planLength,
                        note := "bad-execution-format", model := env.model,
                        reasoning := if combined = "" then none else some combined,
                        progress := none, status := some "bad_format" },
              session := session4, planCount := planCount }

/-- Environment with a key configured and an unlimited plan budget, for the
example instantiations. -/
def exampleEnv : PlannerEnv :=
  { apiKeyPresent := true, maxPlansPerSession := 0, model := "m" }

/-- A first model response whose execution block carries an invalid
direction token. -/
def badFirstCall : CallOutcome := .ok "<execution>MOVE:Z</execution>" none

/-- A first model response with a valid execution block. -/
def goodFirstCall : CallOutcome := .ok "<execution>MOVE:D MOVE:U</execution>" none

/-- A correction response with a valid execution block. -/
def goodCorrCall : CallOutcome := .ok "<execution>MOVE:D</execution>" none

/-! ### Theorems -/

theorem clampLen_intCast (planLength : Int) :
    (clampLen planLength : Int) = max 1 (min 10 planLength) := by
  unfold clampLen
  rcases eq_or_ne planLength 0 with h0 | h0
  · subst h0; decide
  · rw [if_neg h0, Int.toNat_of_nonneg]
    have := le_max_left (1 : Int) (min 10 planLength)
    omega

/-- C1: for every state and every `planLength ∈ [1,10]` the fallback planner
returns exactly `planLength` actions — in general exactly
`clamp(planLength, 1, 10)` actions — and each slot is chosen by the rule
order: at the fuel station with cargo or missing fuel → `SURFACE_OPS`;
otherwise at the upgrade shop with money ≥ 150 → `UPGRADE(FUEL)`;
otherwise → `MOVE(D)`. -/
theorem c1_fallback_planner (state : State) (planLength : Int) :
    ((planActions state planLength).length : Int) = max 1 (min 10 planLength)
    ∧ (1 ≤ planLength → planLength ≤ 10 →
        ((planActions state planLength).length : Int) = planLength)
    ∧ ∀ a ∈ planActions state planLength,
        (state.atFuelStation = true ∧ (0 < state.cargo.cur ∨ state.fuel.cur < state.fuel.max) →
          a = .surfaceOps "Refuel and cash in at station.")
        ∧ (¬(state.atFuelStation = true ∧
              (0 < state.cargo.cur ∨ state.fuel.cur < state.fuel.max)) →
            state.atUpgradeShop = true ∧ 150 ≤ state.money →
            a = .upgrade "FUEL" "Buying fuel upgrade.")
        ∧ (¬(state.atFuelStation = true ∧
              (0 < state.cargo.cur ∨ state.fuel.cur < state.fuel.max)) →
            ¬(state.atUpgradeShop = true ∧ 150 ≤ state.money) →
            a = .move "D" "Server plan: move down.") := by
  have hlen : (planActions state planLength).length = clampLen planLength := by
    simp [planActions]
  refine ⟨?_, ?_, ?_⟩
  · rw [hlen]; exact clampLen_intCast planLength
  · intro h1 h10
    rw [hlen, clampLen_intCast]
    rw [min_eq_right h10, max_eq_right h1]
  · intro a ha
    rw [planActions] at ha
    obtain ⟨i, -, rfl⟩ := List.mem_map.mp ha
    refine ⟨?_, ?_, ?_⟩
    · intro h1; simp [h1]
    · intro h1 h2; simp [h1, h2]
    · intro h1 h2; simp [h1, h2]

theorem c1_fallback_planner_witness :
    ((planActions exampleState 7).length : Int) = 7 :=
  (c1_fallback_planner exampleState 7).2.1 (by decide) (by decide)

theorem tokenizeAux_wsFree (cs : List Char) :
    ∀ acc, (∀ ch ∈ acc, ch.isWhitespace = false) →
      ∀ tok ∈ tokenizeAux acc cs, tok ≠ [] ∧ ∀ ch ∈ tok, ch.isWhitespace = false := by
  induction cs with
  | nil =>
    intro acc hacc tok htok
    rw [tokenizeAux] at htok
    by_cases h : acc = []
    · simp [h] at htok
    · rw [if_neg h] at htok
      rcases List.mem_singleton.mp htok with rfl
      refine ⟨?_, fun ch hch => hacc ch (List.mem_reverse.mp hch)⟩
      intro hr
      exact h (by simpa using hr)
  | cons c cs ih =>
    intro acc hacc tok htok
    rw [tokenizeAux] at htok
    by_cases hw : c.isWhitespace
    · rw [if_pos hw] at htok
      by_cases h : acc = []
      · rw [if_pos h] at htok
        exact ih [] (by simp) tok htok
      · rw [if_neg h] at htok
        rcases List.mem_cons.mp htok with rfl | hmem
        · refine ⟨?_, fun ch hch => hacc ch (List.mem_reverse.mp hch)⟩
          intro hr
          exact h (by simpa using hr)
        · exact ih [] (by simp) tok hmem
    · rw [if_neg hw] at htok
      refine ih (c :: acc) ?_ tok htok
      intro ch hch
      rcases List.mem_cons.mp hch with rfl | h2
      · simpa using hw
      · exact hacc ch h2

theorem tokenizeChars_wsFree (cs : List Char) :
    ∀ tok ∈ tokenizeChars cs, tok ≠ [] ∧ ∀ ch ∈ tok, ch.isWhitespace = false :=
  tokenizeAux_wsFree cs [] (by simp)

theorem dropWhile_eq_self_of_wsFree (p : Char → Bool) (l : List Char)
    (h : ∀ c ∈ l, p c = false) : l.dropWhile p = l := by
  cases l with
  | nil => rfl
  | cons a t => rw [List.dropWhile_cons, h a (by simp)]; simp

theorem trimChars_eq_self (cs : List Char)
    (h : ∀ c ∈ cs, c.isWhitespace = false) : trimChars cs = cs := by
  unfold trimChars
  rw [dropWhile_eq_self_of_wsFree _ cs h]
  rw [dropWhile_eq_self_of_wsFree _ cs.reverse (fun c hc => h c (List.mem_reverse.mp hc))]
  exact List.reverse_reverse cs

theorem mem_four_strings {s a b c d : String} (h : s ∈ [a, b, c, d]) :
    s = a ∨ s = b ∨ s = c ∨ s = d := by
  simpa using h

theorem parseToken_of_valid (tok : List Char)
    (hws : ∀ ch ∈ tok, ch.isWhitespace = false)
    (hv : validTokenB (upperStr tok) = true) :
    ∃ a, parseToken tok = some a ∧ tokenMatches tok a := by
  have hpt : parseToken tok = parseTokenCore (upperStr tok) := by
    rw [parseToken, trimChars_eq_self tok hws]
  have hv2 : upperStr tok = "SURFACE_OPS" ∨ upperStr tok ∈ moveTokens ∨
      upperStr tok ∈ upgradeTokens := of_decide_eq_true hv
  rcases hv2 with h | hm | hm
  · exact ⟨.surfaceOps "Planned action.",
      hpt.trans ((congrArg parseTokenCore h).trans (by decide)), h⟩
  · rcases mem_four_strings hm with h | h | h | h
    · exact ⟨.move "U" "Planned action.",
        hpt.trans ((congrArg parseTokenCore h).trans (by decide)), by decide,
        h.trans (by decide)⟩
    · exact ⟨.move "D" "Planned action.",
        hpt.trans ((congrArg parseTokenCore h).trans (by decide)), by decide,
        h.trans (by decide)⟩
    · exact ⟨.move "L" "Planned action.",
        hpt.trans ((congrArg parseTokenCore h).trans (by decide)), by decide,
        h.trans (by decide)⟩
    · exact ⟨.move "R" "Planned action.",
        hpt.trans ((congrArg parseTokenCore h).trans (by decide)), by decide,
        h.trans (by decide)⟩
  · rcases mem_four_strings hm with h | h | h | h
    · exact ⟨.upgrade "FUEL" "Planned action.",
        hpt.trans ((congrArg parseTokenCore h).trans (by decide)), by decide,
        h.trans (by decide)⟩
    · exact ⟨.upgrade "CARGO" "Planned action.",
        hpt.trans ((congrArg parseTokenCore h).trans (by decide)), by decide,
        h.trans (by decide)⟩
    · exact ⟨.upgrade "HULL" "Planned action.",
        hpt.trans ((congrArg parseTokenCore h).trans (by decide)), by decide,
        h.trans (by decide)⟩
    · exact ⟨.upgrade "DRILL" "Planned action.",
        hpt.trans ((congrArg parseTokenCore h).trans (by decide)), by decide,
        h.trans (by decide)⟩

theorem filterMap_parse_forall₂ (toks : List (List Char))
    (hws : ∀ tok ∈ toks, ∀ ch ∈ tok, ch.isWhitespace = false)
    (hv : ∀ tok ∈ toks, validTokenB (upperStr tok) = true) :
    List.Forall₂ tokenMatches toks (toks.filterMap parseToken) := by
  induction toks with
  | nil => simp
  | cons t ts ih =>
    obtain ⟨a, hpa, hm⟩ := parseToken_of_valid t (hws t (by simp)) (hv t (by simp))
    simp only [List.filterMap_cons, hpa]
    exact List.Forall₂.cons hm
      (ih (fun tok h => hws tok (by simp [h])) (fun tok h => hv tok (by simp [h])))

theorem validateExecution_iff (executionText : String) (planLength : Int) :
    validateExecution executionText planLength = true ↔
      (1 ≤ (tokenizeChars executionText.data).length ∧
       ((tokenizeChars executionText.data).length : Int) ≤ planLength ∧
       ∀ tok ∈ tokenizeChars executionText.data, validTokenB (upperStr tok) = true) := by
  simp [validateExecution, List.all_eq_true, and_assoc]

theorem validate_implies_forall₂ (executionText : String) (planLength : Int)
    (hv : validateExecution executionText planLength = true) :
    List.Forall₂ tokenMatches (tokenizeChars executionText.data)
      (parseActionTokens executionText) :=
  filterMap_parse_forall₂ _
    (fun tok ht => (tokenizeChars_wsFree _ tok ht).2)
    ((validateExecution_iff executionText planLength).mp hv).2.2

theorem parse_length_of_validate (executionText : String) (planLength : Int)
    (hv : validateExecution executionText planLength = true) :
    (parseActionTokens executionText).length =
      (tokenizeChars executionText.data).length :=
  (validate_implies_forall₂ executionText planLength hv).length_eq.symm

/-- C2: a string whose whitespace tokens all lie (case-insensitively) in the
nine-token vocabulary and whose token count `k` satisfies
`1 ≤ k ≤ planLength` passes `validateExecution`, and `parseActionTokens`
yields exactly `k` actions matching the tokens in order; a string with an
out-of-vocabulary token or a token count outside `[1, planLength]` fails
validation. -/
theorem c2_grammar_roundtrip (executionText : String) (planLength : Int) :
    (validateExecution executionText planLength = true ↔
      (1 ≤ (tokenizeChars executionText.data).length ∧
       ((tokenizeChars executionText.data).length : Int) ≤ planLength ∧
       ∀ tok ∈ tokenizeChars executionText.data, validTokenB (upperStr tok) = true))
    ∧ (validateExecution executionText planLength = true →
       List.Forall₂ tokenMatches (tokenizeChars executionText.data)
         (parseActionTokens executionText)) :=
  ⟨validateExecution_iff executionText planLength,
   validate_implies_forall₂ executionText planLength⟩

theorem c2_grammar_roundtrip_witness :
    List.Forall₂ tokenMatches (tokenizeChars ("MOVE:D MOVE:D MOVE:R").data)
      (parseActionTokens "MOVE:D MOVE:D MOVE:R") :=
  (c2_grammar_roundtrip "MOVE:D MOVE:D MOVE:R" 3).2 (by decide)

/-- C4, counterexample: at `fuelHintCounterState` the estimated return
fuel computed by the code is 7 but the formula of the claim gives 6, and
`shouldReturn` is true although the inequality of the claim fails. -/
theorem c4_counterexample :
    (buildFuelHint fuelHintCounterState).estReturnFuel = 7 ∧
    claimEstReturnFuel fuelHintCounterState = 6 ∧
    (buildFuelHint fuelHintCounterState).shouldReturn = true ∧
    ¬(fuelHintCounterState.fuel.cur ≤ claimEstReturnFuel fuelHintCounterState + 8) := by
  refine ⟨?_, ?_, ?_, ?_⟩ <;>
    norm_num [buildFuelHint, claimEstReturnFuel, fuelHintCounterState,
      ruleBaseTurnFuel, ruleDigFuelDirt, ruleDigFuelLava, fuelStationX]

/-- C4, amended: the estimated return fuel is
`returnDy * (baseTurnFuel + upThrustFuel) + returnDx * (baseTurnFuel + digCost + 1)`
below the surface row, `returnDx * (baseTurnFuel + airMoveCost)` at or above
it, and `shouldReturn` holds iff `fuel.cur ≤ estReturnFuel + 8`. -/
theorem c4_fuel_hint_amended (state : State) :
    (1 < state.pos.y →
      (buildFuelHint state).estReturnFuel =
        (max 0 (state.pos.y - 1) : ℚ) * (ruleBaseTurnFuel state + 2) +
        (|state.pos.x - fuelStationX state| : ℚ) *
          (ruleBaseTurnFuel state + ruleDigFuelDirt state + 1))
    ∧ (state.pos.y ≤ 1 →
      (buildFuelHint state).estReturnFuel =
        (|state.pos.x - fuelStationX state| : ℚ) * (ruleBaseTurnFuel state + 1/2))
    ∧ ((buildFuelHint state).shouldReturn = true ↔
        state.fuel.cur ≤ (buildFuelHint state).estReturnFuel + 8) := by
  refine ⟨?_, ?_, ?_⟩
  · intro hy
    simp only [buildFuelHint, if_pos hy]
    push_cast
    ring
  · intro hy
    have hnot : ¬(1 < state.pos.y) := by omega
    have h0 : max 0 (state.pos.y - 1) = 0 := by omega
    simp only [buildFuelHint, if_neg hnot, h0]
    push_cast
    ring
  · simp only [buildFuelHint]
    exact decide_eq_true_iff

theorem updateFuelRunCount_lastAtStation (s : SessionMemory) (state : State) :
    (updateFuelRunCount s state).lastAtStation = state.atFuelStation := by
  unfold updateFuelRunCount
  rcases hb : state.atFuelStation with _ | _
  · simp
  · rcases hl : s.lastAtStation with _ | _ <;> simp [hl]

theorem updateFuelRunCount_fuelRuns (s : SessionMemory) (state : State) :
    (updateFuelRunCount s state).fuelRuns =
      s.fuelRuns + (if state.atFuelStation = true ∧ s.lastAtStation = false then 1 else 0) := by
  unfold updateFuelRunCount
  rcases hb : state.atFuelStation with _ | _
  · simp
  · rcases hl : s.lastAtStation with _ | _ <;> simp [hl]

theorem fuelRuns_foldl (states : List State) : ∀ (s : SessionMemory),
    (states.foldl updateFuelRunCount s).fuelRuns =
      s.fuelRuns + stationTransitions s.lastAtStation (states.map State.atFuelStation) := by
  induction states with
  | nil => intro s; simp [stationTransitions]
  | cons st sts ih =>
    intro s
    simp only [List.foldl_cons, List.map_cons, stationTransitions]
    rw [ih (updateFuelRunCount s st), updateFuelRunCount_fuelRuns,
      updateFuelRunCount_lastAtStation]
    omega

theorem mapSet_length_pos (m : KnownMap) (k : Int × Int) (v : Char) :
    1 ≤ (mapSet m k v).length := by
  cases m with
  | nil => simp [mapSet]
  | cons p rest =>
    rw [mapSet]
    split <;> simp

theorem mapHasKey_mapSet_self (m : KnownMap) (k : Int × Int) (v : Char) :
    mapHasKey (mapSet m k v) k = true := by
  induction m with
  | nil => simp [mapSet, mapHasKey]
  | cons p rest ih =>
    by_cases hp : p.1 = k
    · simp [mapSet, if_pos hp, mapHasKey]
    · simp only [mapSet, if_neg hp, mapHasKey, List.any_cons, Bool.or_eq_true]
      exact Or.inr ih

theorem mapHasKey_mapSet_mono (m : KnownMap) (k : Int × Int) (v : Char)
    (p : Int × Int) (h : mapHasKey m p = true) :
    mapHasKey (mapSet m k v) p = true := by
  induction m with
  | nil => simp [mapHasKey] at h
  | cons q rest ih =>
    simp only [mapHasKey, List.any_cons, Bool.or_eq_true] at h
    by_cases hq : q.1 = k
    · simp only [mapSet, if_pos hq, mapHasKey, List.any_cons, Bool.or_eq_true]
      rcases h with h | h
      · left
        rw [decide_eq_true_eq] at h ⊢
        rw [← hq]; exact h
      · exact Or.inr h
    · simp only [mapSet, if_neg hq, mapHasKey, List.any_cons, Bool.or_eq_true]
      rcases h with h | h
      · exact Or.inl h
      · exact Or.inr (ih h)

theorem mapHasKey_mapSet_cases (m : KnownMap) (k : Int × Int) (v : Char)
    (p : Int × Int) (h : mapHasKey (mapSet m k v) p = true) :
    p = k ∨ mapHasKey m p = true := by
  induction m with
  | nil =>
    simp only [mapSet, mapHasKey, List.any_cons, List.any_nil, Bool.or_false,
      decide_eq_true_eq] at h
    exact Or.inl h.symm
  | cons q rest ih =>
    by_cases hq : q.1 = k
    · simp only [mapSet, if_pos hq, mapHasKey, List.any_cons, Bool.or_eq_true,
        decide_eq_true_eq] at h
      simp only [mapHasKey, List.any_cons, Bool.or_eq_true]
      rcases h with h | h
      · exact Or.inl h.symm
      · exact Or.inr (Or.inr h)
    · simp only [mapSet, if_neg hq, mapHasKey, List.any_cons, Bool.or_eq_true] at h
      simp only [mapHasKey, List.any_cons, Bool.or_eq_true]
      rcases h with h | h
      · exact Or.inr (Or.inl h)
      · rcases ih h with h2 | h2
        · exact Or.inl h2
        · exact Or.inr (Or.inr h2)

theorem mapSet_singleton_key (m : KnownMap) (k : Int × Int) (v : Char)
    (p : Int × Int) (hlen : (mapSet m k v).length = 1)
    (hp : mapHasKey (mapSet m k v) p = true) : p = k := by
  cases m with
  | nil =>
    simp only [mapSet, mapHasKey, List.any_cons, List.any_nil, Bool.or_false,
      decide_eq_true_eq] at hp
    exact hp.symm
  | cons q rest =>
    rw [mapSet] at hlen hp
    split at hlen
    · rename_i hq
      rw [if_pos hq] at hp
      simp only [List.length_cons, Nat.add_eq_zero, add_left_eq_self] at hlen
      have hrest : rest = [] := List.length_eq_zero.mp hlen
      subst hrest
      simp only [mapHasKey, List.any_cons, List.any_nil, Bool.or_false,
        decide_eq_true_eq] at hp
      exact hp.symm
    · rename_i hq
      have := mapSet_length_pos rest k v
      simp only [List.length_cons] at hlen
      omega

theorem mapGet_mapSet_self (m : KnownMap) (k : Int × Int) (v : Char) :
    mapGet (mapSet m k v) k = some v := by
  induction m with
  | nil =>
    simp only [mapSet, mapGet]
    rw [List.find?_cons_of_pos _ (by simp)]
    rfl
  | cons q rest ih =>
    by_cases hq : q.1 = k
    · simp only [mapSet, if_pos hq, mapGet]
      rw [List.find?_cons_of_pos _ (by simp)]
      rfl
    · simp only [mapSet, if_neg hq, mapGet]
      rw [List.find?_cons_of_neg _ (by simpa using hq)]
      exact ih

theorem mapGet_mapSet_other (m : KnownMap) (k : Int × Int) (v : Char)
    (p : Int × Int) (h : p ≠ k) :
    mapGet (mapSet m k v) p = mapGet m p := by
  have hk : ¬(k = p) := fun hh => h hh.symm
  induction m with
  | nil =>
    simp only [mapSet, mapGet]
    rw [List.find?_cons_of_neg _ (by simpa using hk)]
  | cons q rest ih =>
    by_cases hq : q.1 = k
    · simp only [mapSet, if_pos hq, mapGet]
      rw [List.find?_cons_of_neg _ (by simpa using hk)]
      rw [List.find?_cons_of_neg _ (by simp [hq]; exact hk)]
    · simp only [mapSet, if_neg hq, mapGet]
      by_cases hp : q.1 = p
      · rw [List.find?_cons_of_pos _ (by simpa using hp),
          List.find?_cons_of_pos _ (by simpa using hp)]
      · rw [List.find?_cons_of_neg _ (by simpa using hp),
          List.find?_cons_of_neg _ (by simpa using hp)]
        exact ih

theorem mapGet_hasKey (m : KnownMap) (p : Int × Int) (v : Char)
    (h : mapGet m p = some v) : mapHasKey m p = true := by
  induction m with
  | nil => simp [mapGet, List.find?] at h
  | cons q rest ih =>
    simp only [mapHasKey, List.any_cons, Bool.or_eq_true]
    by_cases hq : q.1 = p
    · exact Or.inl (by simpa using hq)
    · simp only [mapGet] at h
      rw [List.find?_cons_of_neg _ (by simpa using hq)] at h
      exact Or.inr (ih h)

theorem mapSet_get_eq_self (m : KnownMap) (k : Int × Int) (v : Char)
    (h : mapGet m k = some v) : mapSet m k v = m := by
  induction m with
  | nil => simp [mapGet, List.find?] at h
  | cons q rest ih =>
    by_cases hq : q.1 = k
    · simp only [mapGet] at h
      rw [List.find?_cons_of_pos _ (by simpa using hq)] at h
      have hqkv : q = (k, v) := Prod.ext hq (by simpa using h)
      rw [hqkv]
      simp [mapSet]
    · simp only [mapGet] at h
      rw [List.find?_cons_of_neg _ (by simpa using hq)] at h
      simp only [mapSet, if_neg hq]
      rw [ih h]

theorem widenBounds_wf (b : Bounds) (k : Int × Int) :
    (widenBounds b k).minX ≤ (widenBounds b k).maxX ∧
    (widenBounds b k).minY ≤ (widenBounds b k).maxY := by
  unfold widenBounds
  constructor
  · exact le_trans (min_le_right _ _) (le_max_right _ _)
  · exact le_trans (min_le_right _ _) (le_max_right _ _)

theorem widenBounds_mem (b : Bounds) (k : Int × Int) :
    inBounds k (widenBounds b k) :=
  ⟨min_le_right _ _, le_max_right _ _, min_le_right _ _, le_max_right _ _⟩

theorem widenBounds_mono (b : Bounds) (k p : Int × Int)
    (h : inBounds p b) : inBounds p (widenBounds b k) := by
  obtain ⟨h1, h2, h3, h4⟩ := h
  exact ⟨le_trans (min_le_left _ _) h1, le_trans h2 (le_max_left _ _),
    le_trans (min_le_left _ _) h3, le_trans h4 (le_max_left _ _)⟩

theorem widenBounds_absorb (b : Bounds) (k : Int × Int)
    (h : inBounds k b) : widenBounds b k = b := by
  obtain ⟨h1, h2, h3, h4⟩ := h
  simp [widenBounds, min_eq_left h1, max_eq_left h2, min_eq_left h3, max_eq_left h4]

theorem pointBounds_mem (k : Int × Int) : inBounds k (pointBounds k) :=
  ⟨le_refl _, le_refl _, le_refl _, le_refl _⟩

theorem insertCell_known (s : SessionMemory) (c : (Int × Int) × Char) :
    (insertCell s c).known = mapSet s.known c.1 c.2 := rfl

theorem insertCell_bounds (s : SessionMemory) (c : (Int × Int) × Char) :
    (insertCell s c).bounds =
      if (mapSet s.known c.1 c.2).length = 1 then pointBounds c.1
      else widenBounds s.bounds c.1 := rfl

theorem insertCell_inv (s : SessionMemory) (c : (Int × Int) × Char)
    (h : memInv s) : memInv (insertCell s c) := by
  obtain ⟨hwf, hbox⟩ := h
  constructor
  · rw [insertCell_bounds]
    split
    · exact ⟨le_refl _, le_refl _⟩
    · exact widenBounds_wf _ _
  · intro p hp
    rw [insertCell_known] at hp
    rw [insertCell_bounds]
    split
    · rename_i hlen
      rw [mapSet_singleton_key _ _ _ _ hlen hp]
      exact pointBounds_mem _
    · rcases mapHasKey_mapSet_cases _ _ _ _ hp with rfl | hold
      · exact widenBounds_mem _ _
      · exact widenBounds_mono _ _ _ (hbox p hold)

theorem foldl_insertCell_inv (cells : List ((Int × Int) × Char)) :
    ∀ (s : SessionMemory), memInv s → memInv (cells.foldl insertCell s) := by
  induction cells with
  | nil => intro s h; exact h
  | cons c rest ih =>
    intro s h
    rw [List.foldl_cons]
    exact ih _ (insertCell_inv s c h)

theorem updateMemory_inv (s : SessionMemory) (state : State)
    (h : memInv s) : memInv (updateMemory s state) :=
  foldl_insertCell_inv (scanCells state) s h

theorem freshSession_inv (id : String) : memInv (freshSession id) := by
  refine ⟨⟨le_refl _, le_refl _⟩, ?_⟩
  intro p hp
  simp [freshSession, mapHasKey] at hp

/-- C6: after any sequence of `updateMemory` calls on a fresh session the
bounding box is well-ordered and contains every key of the tile map. -/
theorem c6_bounds_invariant (id : String) (states : List State) :
    (states.foldl updateMemory (freshSession id)).bounds.minX ≤
      (states.foldl updateMemory (freshSession id)).bounds.maxX
    ∧ (states.foldl updateMemory (freshSession id)).bounds.minY ≤
      (states.foldl updateMemory (freshSession id)).bounds.maxY
    ∧ ∀ p, mapHasKey (states.foldl updateMemory (freshSession id)).known p = true →
        inBounds p (states.foldl updateMemory (freshSession id)).bounds := by
  have h : ∀ (s : SessionMemory), memInv s → memInv (states.foldl updateMemory s) := by
    induction states with
    | nil => intro s hs; exact hs
    | cons st sts ih =>
      intro s hs
      rw [List.foldl_cons]
      exact ih _ (updateMemory_inv s st hs)
  obtain ⟨⟨h1, h2⟩, h3⟩ := h (freshSession id) (freshSession_inv id)
  exact ⟨h1, h2, h3⟩

theorem c6_bounds_invariant_witness :
    inBounds (-2, -2) (([scanExampleState].foldl updateMemory (freshSession "w")).bounds) :=
  (c6_bounds_invariant "w" [scanExampleState]).2.2 (-2, -2) (by decide)

theorem SessionMemory.ext' {a b : SessionMemory} (h1 : a.id = b.id)
    (h2 : a.known = b.known) (h3 : a.visited = b.visited) (h4 : a.bounds = b.bounds)
    (h5 : a.history = b.history) (h6 : a.fuelRuns = b.fuelRuns)
    (h7 : a.lastAtStation = b.lastAtStation) : a = b := by
  cases a; cases b; simp_all

theorem foldl_insertCell_known (cells : List ((Int × Int) × Char)) :
    ∀ (s : SessionMemory),
      (cells.foldl insertCell s).known =
        cells.foldl (fun m c => mapSet m c.1 c.2) s.known := by
  induction cells with
  | nil => intro s; rfl
  | cons c rest ih =>
    intro s
    rw [List.foldl_cons, List.foldl_cons, ih, insertCell_known]

theorem foldl_mapSet_get_stable (cells : List ((Int × Int) × Char)) :
    ∀ (m : KnownMap) (p : Int × Int), (∀ c ∈ cells, c.1 ≠ p) →
      mapGet (cells.foldl (fun m c => mapSet m c.1 c.2) m) p = mapGet m p := by
  induction cells with
  | nil => intro m p _; rfl
  | cons c rest ih =>
    intro m p hne
    rw [List.foldl_cons, ih _ _ (fun d hd => hne d (List.mem_cons_of_mem _ hd)),
      mapGet_mapSet_other _ _ _ _ (fun hh => hne c (List.mem_cons_self _ _) hh.symm)]

theorem foldl_mapSet_get_mem (cells : List ((Int × Int) × Char))
    (hnd : (cells.map Prod.fst).Nodup) :
    ∀ (m : KnownMap), ∀ c ∈ cells,
      mapGet (cells.foldl (fun m c => mapSet m c.1 c.2) m) c.1 = some c.2 := by
  induction cells with
  | nil => simp
  | cons c rest ih =>
    have hsplit : c.1 ∉ rest.map Prod.fst ∧ (rest.map Prod.fst).Nodup := by
      rw [List.map_cons, List.nodup_cons] at hnd
      exact hnd
    intro m d hd
    rw [List.foldl_cons]
    rcases List.mem_cons.mp hd with rfl | hdr
    · have hne : ∀ e ∈ rest, e.1 ≠ d.1 := by
        intro e he hh
        exact hsplit.1 (hh ▸ List.mem_map_of_mem Prod.fst he)
      rw [foldl_mapSet_get_stable rest _ _ hne]
      exact mapGet_mapSet_self _ _ _
    · exact ih hsplit.2 _ d hdr

theorem foldl_insertCell_preserve (q : Int × Int)
    (cells : List ((Int × Int) × Char)) :
    ∀ (t : SessionMemory), mapHasKey t.known q = true → inBounds q t.bounds →
      (∀ d ∈ cells, d.1 ≠ q) →
      inBounds q ((cells.foldl insertCell t).bounds) := by
  induction cells with
  | nil => intro t _ h2 _; exact h2
  | cons d rest ih =>
    intro t h1 h2 hne
    rw [List.foldl_cons]
    refine ih (insertCell t d) ?_ ?_ (fun e he => hne e (List.mem_cons_of_mem _ he))
    · rw [insertCell_known]
      exact mapHasKey_mapSet_mono _ _ _ _ h1
    · rw [insertCell_bounds]
      split
      · rename_i hlen
        have hq : mapHasKey (mapSet t.known d.1 d.2) q = true :=
          mapHasKey_mapSet_mono _ _ _ _ h1
        exact absurd (mapSet_singleton_key _ _ _ _ hlen hq).symm
          (hne d (List.mem_cons_self _ _))
      · exact widenBounds_mono _ _ _ h2

theorem foldl_insertCell_cells_inBounds (cells : List ((Int × Int) × Char))
    (hnd : (cells.map Prod.fst).Nodup) :
    ∀ (s : SessionMemory), ∀ c ∈ cells,
      inBounds c.1 ((cells.foldl insertCell s).bounds) := by
  induction cells with
  | nil => simp
  | cons c rest ih =>
    have hsplit : c.1 ∉ rest.map Prod.fst ∧ (rest.map Prod.fst).Nodup := by
      rw [List.map_cons, List.nodup_cons] at hnd
      exact hnd
    intro s d hd
    rw [List.foldl_cons]
    rcases List.mem_cons.mp hd with rfl | hdr
    · refine foldl_insertCell_preserve d.1 rest (insertCell s d) ?_ ?_ ?_
      · rw [insertCell_known]
        exact mapHasKey_mapSet_self _ _ _
      · rw [insertCell_bounds]
        split
        · exact pointBounds_mem _
        · exact widenBounds_mem _ _
      · intro e he hh
        exact hsplit.1 (hh ▸ List.mem_map_of_mem Prod.fst he)
    · exact ih hsplit.2 (insertCell s c) d hdr

theorem foldl_insertCell_len_one_bounds (cells : List ((Int × Int) × Char))
    (s : SessionMemory) (hne : cells ≠ [])
    (hlen : ((cells.foldl insertCell s).known).length = 1) :
    ∃ lst ∈ cells, (cells.foldl insertCell s).bounds = pointBounds lst.1 := by
  rcases List.eq_nil_or_concat' cells with rfl | ⟨L, b, rfl⟩
  · exact absurd rfl hne
  · refine ⟨b, by simp, ?_⟩
    rw [List.foldl_append] at hlen ⊢
    simp only [List.foldl_cons, List.foldl_nil] at hlen ⊢
    rw [insertCell_known] at hlen
    rw [insertCell_bounds, if_pos hlen]

theorem insertCell_noop (t : SessionMemory) (c : (Int × Int) × Char)
    (hget : mapGet t.known c.1 = some c.2)
    (hin : inBounds c.1 t.bounds)
    (hlen1 : t.known.length = 1 → t.bounds = pointBounds c.1) :
    insertCell t c = t := by
  have hks : mapSet t.known c.1 c.2 = t.known := mapSet_get_eq_self _ _ _ hget
  have hb : (insertCell t c).bounds = t.bounds := by
    rw [insertCell_bounds, hks]
    split
    · rename_i hl
      exact (hlen1 hl).symm
    · exact widenBounds_absorb _ _ hin
  have hk : (insertCell t c).known = t.known := by rw [insertCell_known, hks]
  exact SessionMemory.ext' rfl hk rfl hb rfl rfl rfl

theorem foldl_insertCell_noop (cells : List ((Int × Int) × Char)) :
    ∀ (t : SessionMemory), (∀ c ∈ cells, insertCell t c = t) →
      cells.foldl insertCell t = t := by
  induction cells with
  | nil => intro t _; rfl
  | cons c rest ih =>
    intro t h
    rw [List.foldl_cons, h c (List.mem_cons_self _ _)]
    exact ih t (fun d hd => h d (List.mem_cons_of_mem _ hd))

theorem scanCells_keys_nodup (state : State) :
    ((scanCells state).map Prod.fst).Nodup := by
  unfold scanCells
  rw [List.map_flatMap, List.nodup_flatMap]
  constructor
  · intro row hrow
    rw [List.map_map]
    refine List.Nodup.map_on ?_ (List.Nodup.of_map _ (List.nodup_enum_map_fst row.2.data))
    · intro x hx y hy hxy
      refine List.inj_on_of_nodup_map (List.nodup_enum_map_fst row.2.data) hx hy ?_
      have hcast : (x.1 : Int) = (y.1 : Int) := by
        have h1 := congrArg Prod.fst hxy
        simpa using h1
      exact_mod_cast hcast
  · have hp : List.Pairwise (fun a b => a.1 ≠ b.1) state.localScan.enum :=
      List.pairwise_map.mp (List.nodup_enum_map_fst state.localScan)
    refine hp.imp ?_
    intro a b hab
    intro k hk1 hk2
    simp only [List.map_map, List.mem_map] at hk1 hk2
    obtain ⟨q1, _, hq1⟩ := hk1
    obtain ⟨q2, _, hq2⟩ := hk2
    have hsnd : (state.pos.y - 2) + (a.1 : Int) = (state.pos.y - 2) + (b.1 : Int) := by
      have := congrArg Prod.snd (hq1.trans hq2.symm)
      simpa using this
    have : a.1 = b.1 := by omega
    exact hab this

theorem updateMemory_known (s : SessionMemory) (st : State) :
    (updateMemory s st).known = ((scanCells st).foldl insertCell s).known := rfl

theorem updateMemory_bounds (s : SessionMemory) (st : State) :
    (updateMemory s st).bounds = ((scanCells st).foldl insertCell s).bounds := rfl

/-- C7: applying `updateMemory` twice with the same state leaves the tile
map and the bounding box equal to what a single application produces, for
every session and state. -/
theorem c7_update_idempotent (s : SessionMemory) (state : State) :
    (updateMemory (updateMemory s state) state).known = (updateMemory s state).known ∧
    (updateMemory (updateMemory s state) state).bounds = (updateMemory s state).bounds := by
  set u := updateMemory s state with hu
  have hnd := scanCells_keys_nodup state
  have hget : ∀ c ∈ scanCells state, mapGet u.known c.1 = some c.2 := by
    intro c hc
    rw [hu, updateMemory_known, foldl_insertCell_known]
    exact foldl_mapSet_get_mem (scanCells state) hnd s.known c hc
  have hbounds : ∀ c ∈ scanCells state, inBounds c.1 u.bounds := by
    intro c hc
    rw [hu, updateMemory_bounds]
    exact foldl_insertCell_cells_inBounds (scanCells state) hnd s c hc
  have hnoop : ∀ c ∈ scanCells state, insertCell u c = u := by
    intro c hc
    refine insertCell_noop u c (hget c hc) (hbounds c hc) ?_
    intro hl
    have hne2 : scanCells state ≠ [] := by
      intro hnil
      rw [hnil] at hc
      simp at hc
    have hl2 : ((scanCells state).foldl insertCell s).known.length = 1 := by
      rw [hu, updateMemory_known] at hl
      exact hl
    obtain ⟨lst, hlst, hb⟩ := foldl_insertCell_len_one_bounds _ s hne2 hl2
    have hk1 : mapHasKey u.known c.1 = true := mapGet_hasKey _ _ _ (hget c hc)
    have hk2 : mapHasKey u.known lst.1 = true := mapGet_hasKey _ _ _ (hget lst hlst)
    have heq : c.1 = lst.1 := by
      rcases hul : u.known with _ | ⟨x, rest⟩
      · rw [hul] at hk1
        simp [mapHasKey] at hk1
      · rw [hul] at hl
        simp only [List.length_cons] at hl
        have hrest : rest = [] := List.length_eq_zero.mp (by omega)
        rw [hul, hrest] at hk1 hk2
        simp only [mapHasKey, List.any_cons, List.any_nil, Bool.or_false,
          decide_eq_true_eq] at hk1 hk2
        rw [← hk1, ← hk2]
    rw [hu, updateMemory_bounds, hb, heq]
  constructor
  · rw [updateMemory_known, foldl_insertCell_noop _ u hnoop]
  · rw [updateMemory_bounds, foldl_insertCell_noop _ u hnoop]

/-- C8: the fuel-run counter increments exactly once per transition of
`atFuelStation` from false (or the initial flag) to true and never while
the flag stays continuously true — the counter increase equals the number
of `false → true` transitions — and for the flag sequence
`[true, true, false, true]` on a fresh session it increments exactly
twice. -/
theorem c8_fuel_run_transitions :
    (∀ (s : SessionMemory) (states : List State),
      (states.foldl updateFuelRunCount s).fuelRuns =
        s.fuelRuns + stationTransitions s.lastAtStation (states.map State.atFuelStation))
    ∧ (([true, true, false, true].map flagState).foldl updateFuelRunCount
        (freshSession "s")).fuelRuns = 2 :=
  ⟨fun s states => fuelRuns_foldl states s, by decide⟩

theorem c4_fuel_hint_amended_witness :
    (buildFuelHint fuelHintCounterState).estReturnFuel =
      (max 0 (fuelHintCounterState.pos.y - 1) : ℚ) *
        (ruleBaseTurnFuel fuelHintCounterState + 2) +
      (|fuelHintCounterState.pos.x - fuelStationX fuelHintCounterState| : ℚ) *
        (ruleBaseTurnFuel fuelHintCounterState + ruleDigFuelDirt fuelHintCounterState + 1) :=
  (c4_fuel_hint_amended fuelHintCounterState).1 (by decide)

/-- C3: when the upstream model call fails (network error, non-timeout
abort, or timeout-triggered abort — all raised into the single catch
branch), the response has `status = "api_error"` and an empty action list;
no fallback plan is substituted on this path. -/
theorem c3_api_error (env : PlannerEnv) (planCount : Nat) (session : SessionMemory)
    (state : State) (planLength : Int) (fuelNavigator : Option FuelNavigatorPayload)
    (msg : String) (corrCall : CallOutcome)
    (hkey : env.apiKeyPresent = true)
    (hbudget : ¬(0 < env.maxPlansPerSession ∧ env.maxPlansPerSession ≤ planCount)) :
    (callOpenRouterPlan env planCount session state planLength fuelNavigator
        (.failure msg) corrCall).resp.status = some "api_error"
    ∧ (callOpenRouterPlan env planCount session state planLength fuelNavigator
        (.failure msg) corrCall).resp.actions = [] := by
  unfold callOpenRouterPlan
  rw [if_neg (by simp [hkey]), if_neg hbudget]
  exact ⟨rfl, rfl⟩

theorem c3_api_error_witness :
    (callOpenRouterPlan exampleEnv 0 (freshSession "e") exampleState 3 none
        (.failure "boom") goodCorrCall).resp.status = some "api_error"
    ∧ (callOpenRouterPlan exampleEnv 0 (freshSession "e") exampleState 3 none
        (.failure "boom") goodCorrCall).resp.actions = [] :=
  c3_api_error exampleEnv 0 (freshSession "e") exampleState 3 none "boom" goodCorrCall
    (by decide) (by decide)

/-- C9: with no API key configured the planner answers, without consulting
the model-call outcomes, with note `"fallback-no-key"` and a non-empty
action list of length `min(planLength, 10)` (for `planLength ≥ 1`). -/
theorem c9_no_key_fallback (env : PlannerEnv) (planCount : Nat) (session : SessionMemory)
    (state : State) (planLength : Int) (fuelNavigator : Option FuelNavigatorPayload)
    (firstCall corrCall : CallOutcome)
    (hkey : env.apiKeyPresent = false) (hlen : 1 ≤ planLength) :
    (callOpenRouterPlan env planCount session state planLength fuelNavigator
        firstCall corrCall).resp.note = "fallback-no-key"
    ∧ (((callOpenRouterPlan env planCount session state planLength fuelNavigator
        firstCall corrCall).resp.actions).length : Int) = min planLength 10
    ∧ (callOpenRouterPlan env planCount session state planLength fuelNavigator
        firstCall corrCall).resp.actions ≠ []
    ∧ ∀ (first2 corr2 : CallOutcome),
        callOpenRouterPlan env planCount session state planLength fuelNavigator
            first2 corr2 =
          callOpenRouterPlan env planCount session state planLength fuelNavigator
            firstCall corrCall := by
  have hrw : ∀ (f c : CallOutcome),
      callOpenRouterPlan env planCount session state planLength fuelNavigator f c =
        { resp := { actions := planActions state planLength, note := "fallback-no-key",
                    model := env.model, reasoning := none, progress := none,
                    status := none },
          session := session, planCount := planCount } := by
    intro f c
    unfold callOpenRouterPlan
    rw [if_pos hkey]
  refine ⟨by rw [hrw], ?_, ?_, ?_⟩
  · rw [hrw]
    show ((planActions state planLength).length : Int) = min planLength 10
    have h1 := (c1_fallback_planner state planLength).1
    rw [h1]
    omega
  · rw [hrw]
    show planActions state planLength ≠ []
    have h1 := (c1_fallback_planner state planLength).1
    intro hnil
    rw [hnil] at h1
    simp at h1
    omega
  · intro f2 c2
    rw [hrw, hrw]

theorem c9_no_key_fallback_witness :
    (callOpenRouterPlan { apiKeyPresent := false, maxPlansPerSession := 0, model := "m" }
        0 (freshSession "e") exampleState 3 none goodFirstCall goodCorrCall).resp.note =
      "fallback-no-key"
    ∧ (((callOpenRouterPlan
        { apiKeyPresent := false, maxPlansPerSession := 0, model := "m" }
        0 (freshSession "e") exampleState 3 none goodFirstCall
        goodCorrCall).resp.actions).length : Int) = min 3 10 :=
  have h := c9_no_key_fallback
    { apiKeyPresent := false, maxPlansPerSession := 0, model := "m" }
    0 (freshSession "e") exampleState 3 none goodFirstCall goodCorrCall rfl (by decide)
  ⟨h.1, h.2.1⟩

theorem requestCorrection_note (model : String) (corr : CallOutcome) (planLength : Int)
    (r : PlanResponse) (h : requestCorrection model corr planLength = some r) :
    r.note = "openrouter-corrected" := by
  unfold requestCorrection at h
  split at h
  · simp at h
  · split at h
    · simp at h
    · split at h
      · simp at h
      · split at h
        · split at h
          · simp at h
          · rw [Option.some.injEq] at h
            rw [← h]
        · simp at h

theorem parse_bounds_of_validate (executionText : String) (planLength : Int)
    (hv : validateExecution executionText planLength = true) :
    1 ≤ (parseActionTokens executionText).length ∧
    ((parseActionTokens executionText).length : Int) ≤ planLength := by
  have hlen := parse_length_of_validate executionText planLength hv
  have hiff := (validateExecution_iff executionText planLength).mp hv
  rw [hlen]
  exact ⟨hiff.1, hiff.2.1⟩

/-- C5, counterexample: a plan accepted through the correction round-trip
(note `"openrouter-corrected"`) leaves the process-wide plan counter
unchanged (here at 5), falsifying "on every accepted plan the counter
increments by one". -/
theorem c5_counterexample :
    (callOpenRouterPlan exampleEnv 5 (freshSession "c") exampleState 3 none
        badFirstCall goodCorrCall).resp.note = "openrouter-corrected"
    ∧ (callOpenRouterPlan exampleEnv 5 (freshSession "c") exampleState 3 none
        badFirstCall goodCorrCall).planCount = 5 := by
  decide

theorem run_note_ne_parse (env : PlannerEnv) (planCount : Nat) (session : SessionMemory)
    (state : State) (planLength : Int) (fuelNavigator : Option FuelNavigatorPayload)
    (firstCall corrCall : CallOutcome) :
    (callOpenRouterPlan env planCount session state planLength fuelNavigator
        firstCall corrCall).resp.note ≠ "bad-execution-parse" := by
  simp only [callOpenRouterPlan]
  split
  · intro hcontra; exact absurd hcontra (by simp)
  · split
    · intro hcontra; exact absurd hcontra (by simp)
    · split
      · intro hcontra; exact absurd hcontra (by simp)
      · split
        · split
          · rename_i r heq
            intro hcontra
            have h3 : r.note = "bad-execution-parse" := hcontra
            rw [requestCorrection_note _ _ _ r heq] at h3
            exact absurd h3 (by decide)
          · intro hcontra; exact absurd hcontra (by simp)
        · split
          · split
            · rename_i r heq
              intro hcontra
              have h3 : r.note = "bad-execution-parse" := hcontra
              rw [requestCorrection_note _ _ _ r heq] at h3
              exact absurd h3 (by decide)
            · intro hcontra; exact absurd hcontra (by simp)
          · split
            · split
              · rename_i hval hmis
                have hb := parse_bounds_of_validate _ planLength hval
                rcases hmis with h | h <;> omega
              · intro hcontra; exact absurd hcontra (by simp)
            · split
              · rename_i r heq
                intro hcontra
                have h3 : r.note = "bad-execution-parse" := hcontra
                rw [requestCorrection_note _ _ _ r heq] at h3
                exact absurd h3 (by decide)
              · intro hcontra; exact absurd hcontra (by simp)

/-- C10: whenever `validateExecution` succeeds, `parseActionTokens` on the
same text yields exactly one action per token, hence between 1 and
`planLength` actions; consequently the `"bad-execution-parse"` branch of
`callOpenRouterPlan` is unreachable — no run ever returns that note. -/
theorem c10_parse_branch_unreachable :
    (∀ (executionText : String) (planLength : Int),
      validateExecution executionText planLength = true →
        (parseActionTokens executionText).length =
          (tokenizeChars executionText.data).length ∧
        1 ≤ (parseActionTokens executionText).length ∧
        ((parseActionTokens executionText).length : Int) ≤ planLength)
    ∧ ∀ (env : PlannerEnv) (planCount : Nat) (session : SessionMemory) (state : State)
        (planLength : Int) (fuelNavigator : Option FuelNavigatorPayload)
        (firstCall corrCall : CallOutcome),
        (callOpenRouterPlan env planCount session state planLength fuelNavigator
            firstCall corrCall).resp.note ≠ "bad-execution-parse" :=
  ⟨fun t pl hv => ⟨parse_length_of_validate t pl hv,
      (parse_bounds_of_validate t pl hv).1, (parse_bounds_of_validate t pl hv).2⟩,
   fun env pc s st pl nav f c => run_note_ne_parse env pc s st pl nav f c⟩

theorem c10_parse_branch_unreachable_witness :
    (parseActionTokens "MOVE:D").length = (tokenizeChars ("MOVE:D").data).length ∧
    1 ≤ (parseActionTokens "MOVE:D").length ∧
    ((parseActionTokens "MOVE:D").length : Int) ≤ 2 :=
  c10_parse_branch_unreachable.1 "MOVE:D" 2 (by decide)

/-- C5, amended: on every accepted plan the session conversation history
gains exactly one user turn holding the size-bounded payload summary (not
the raw payload) and one assistant turn holding the raw combined text of
the initial model response; the process-wide plan counter increments by
one exactly when the plan was accepted directly (note `"openrouter"`) and
stays unchanged when it was accepted through the correction round-trip
(note `"openrouter-corrected"`). -/
theorem c5_accepted_side_effects (env : PlannerEnv) (planCount : Nat)
    (session : SessionMemory) (state : State) (planLength : Int)
    (fuelNavigator : Option FuelNavigatorPayload) (firstCall corrCall : CallOutcome) :
    (((callOpenRouterPlan env planCount session state planLength fuelNavigator
          firstCall corrCall).resp.note = "openrouter" ∨
      (callOpenRouterPlan env planCount session state planLength fuelNavigator
          firstCall corrCall).resp.note = "openrouter-corrected") →
      (callOpenRouterPlan env planCount session state planLength fuelNavigator
          firstCall corrCall).session.history =
        (appendHistory
          (appendHistory (updateFuelRunCount (updateMemory session state) state)
            .user (.payloadSummary (summarizePayload (buildUserPayload
              (updateFuelRunCount (updateMemory session state) state)
              state planLength fuelNavigator))))
          .assistant (.text (if combinedOf firstCall = "" then "<empty>"
            else combinedOf firstCall))).history)
    ∧ ((callOpenRouterPlan env planCount session state planLength fuelNavigator
          firstCall corrCall).resp.note = "openrouter" →
        (callOpenRouterPlan env planCount session state planLength fuelNavigator
          firstCall corrCall).planCount = planCount + 1)
    ∧ ((callOpenRouterPlan env planCount session state planLength fuelNavigator
          firstCall corrCall).resp.note = "openrouter-corrected" →
        (callOpenRouterPlan env planCount session state planLength fuelNavigator
          firstCall corrCall).planCount = planCount) := by
  simp only [callOpenRouterPlan]
  split
  · exact ⟨fun h => by rcases h with h | h <;> exact absurd h (by simp),
      fun h => absurd h (by simp), fun h => absurd h (by simp)⟩
  · split
    · exact ⟨fun h => by rcases h with h | h <;> exact absurd h (by simp),
        fun h => absurd h (by simp), fun h => absurd h (by simp)⟩
    · split
      · exact ⟨fun h => by rcases h with h | h <;> exact absurd h (by simp),
          fun h => absurd h (by simp), fun h => absurd h (by simp)⟩
      · split
        · split
          · rename_i r heq
            have hr := requestCorrection_note _ _ _ r heq
            refine ⟨fun _ => rfl, fun h => ?_, fun _ => rfl⟩
            have h2 : r.note = "openrouter" := h
            rw [hr] at h2
            exact absurd h2 (by simp)
          · exact ⟨fun h => by rcases h with h | h <;> exact absurd h (by simp),
              fun h => absurd h (by simp), fun h => absurd h (by simp)⟩
        · split
          · split
            · rename_i r heq
              have hr := requestCorrection_note _ _ _ r heq
              refine ⟨fun _ => rfl, fun h => ?_, fun _ => rfl⟩
              have h2 : r.note = "openrouter" := h
              rw [hr] at h2
              exact absurd h2 (by simp)
            · exact ⟨fun h => by rcases h with h | h <;> exact absurd h (by simp),
                fun h => absurd h (by simp), fun h => absurd h (by simp)⟩
          · split
            · split
              · exact ⟨fun h => by rcases h with h | h <;> exact absurd h (by simp),
                  fun h => absurd h (by simp), fun h => absurd h (by simp)⟩
              · exact ⟨fun _ => rfl, fun _ => rfl, fun h => absurd h (by simp)⟩
            · split
              · rename_i r heq
                have hr := requestCorrection_note _ _ _ r heq
                refine ⟨fun _ => rfl, fun h => ?_, fun _ => rfl⟩
                have h2 : r.note = "openrouter" := h
                rw [hr] at h2
                exact absurd h2 (by simp)
              · exact ⟨fun h => by rcases h with h | h <;> exact absurd h (by simp),
                  fun h => absurd h (by simp), fun h => absurd h (by simp)⟩

theorem c5_accepted_side_effects_witness :
    (callOpenRouterPlan exampleEnv 5 (freshSession "c") exampleState 3 none
        goodFirstCall (.failure "x")).planCount = 5 + 1 :=
  (c5_accepted_side_effects exampleEnv 5 (freshSession "c") exampleState 3 none
      goodFirstCall (.failure "x")).2.1 (by decide)

end MLA

